import Mathlib

/-!
Verification of the Report Lifecycle & Analytics Engine: a shallow
embedding of the backend logic in `server.js`, `escalationService.js`
and `predictiveAnalytics.js`.

Timestamps are modelled as integers (milliseconds since the epoch, as
JavaScript `Date.getTime()`), coordinates and similarity scores as
rationals, and the SQLite `reports` table as a list of `Report` records.
-/

namespace CivicReports

/-- Report status, `status IN ('pending', 'verified', 'resolved')`. -/
inductive Status
  | pending
  | verified
  | resolved
deriving DecidableEq, Repr

/-- JavaScript `a || dflt` on an optional string: `undefined`/`null`/`""`
are falsy and replaced by the default. -/
def jsOr (s : Option String) (dflt : String) : String :=
  match s with
  | none => dflt
  | some v => if v = "" then dflt else v

/-! ## SLA table (`escalationService.js`, `SLA_DEFINITIONS`) -/

/-- Severity-based SLAs in hours (`SLA_DEFINITIONS.severity`). -/
def severitySla : String → Option Nat
  | "HIGH" => some 6
  | "MEDIUM" => some 24
  | "LOW" => some 72
  | _ => none

/-- Category-specific overrides in hours (`SLA_DEFINITIONS.category`). -/
def categorySla : String → Option Nat
  | "GARBAGE_OVERFLOW" => some 6
  | "WATER_LEAK" => some 6
  | "DRAIN_BLOCKAGE" => some 12
  | "POTHOLE" => some 24
  | "STREET_LIGHT" => some 24
  | "BROKEN_SIDEWALK" => some 48
  | "ILLEGAL_DUMPING" => some 12
  | "DAMAGED_SIGN" => some 48
  | "VEGETATION_OVERGROWTH" => some 72
  | "OTHER" => some 24
  | _ => none

/-- Hours part of `getSlaDeadline`: the category override is used whenever
the category has an entry (`categorySla !== undefined`), otherwise the
severity table is consulted with key `report.severity || 'MEDIUM'`.
Returns `none` when neither table has an entry (JavaScript `undefined`,
which downstream yields an invalid date). -/
def slaHours (category severity : Option String) : Option Nat :=
  match category.bind categorySla with
  | some h => some h
  | none => severitySla (jsOr severity "MEDIUM")

/-- `getSlaDeadline`: `createdAt + slaHours * 60 * 60 * 1000` milliseconds.
`none` when the hours are undefined (the resulting invalid date makes
`toISOString()` throw in the caller). -/
def getSlaDeadline (category severity : Option String) (createdAt : Int) : Option Int :=
  (slaHours category severity).map (fun h => createdAt + (h : Int) * 3600000)

/-! ## Report record and similarity scan (`server.js`, POST /report) -/

/-- Row of the `reports` table, restricted to the columns the verified
logic reads or writes. -/
structure Report where
  id : Nat
  description : String
  status : Status
  category : Option String
  severity : Option String
  priority : String
  escalated : Bool
  escalationNotified : Bool
  slaDeadline : Option Int
  createdAt : Int
  isPrimary : Bool
  duplicateOf : Option Nat
  similarityScore : Option ℚ
  duplicateCount : Nat
  mergedReports : List Nat
deriving DecidableEq, Repr

/-- Result of the Similarity Oracle (`aiService.compareImages`). -/
structure SimilarityResult where
  similarityScore : ℚ
  reasoning : String
deriving DecidableEq, Repr

instance : DecidableEq (Except Unit SimilarityResult) := fun x y =>
  match x, y with
  | Except.ok a, Except.ok b =>
    if h : a = b then isTrue (by rw [h]) else isFalse (by simp [h])
  | Except.error a, Except.error b => isTrue (by cases a; cases b; rfl)
  | Except.ok _, Except.error _ => isFalse (by simp)
  | Except.error _, Except.ok _ => isFalse (by simp)

/-- Nearby candidate as seen by the duplicate scan: a row returned by the
geo query, together with the outcome of reading its stored image
(`fs.existsSync`) and of the Oracle call (`Except.error` models a thrown
exception, caught by the scan's try/catch). -/
structure Candidate where
  id : Nat
  distance : ℚ
  imageReadable : Bool
  oracle : Except Unit SimilarityResult
deriving DecidableEq, Repr

/-- The `duplicateInfo` record built by the scan. -/
structure DuplicateInfo where
  primaryReportId : Nat
  similarityScore : ℚ
  distance : ℚ
  reasoning : String
deriving DecidableEq, Repr

/-- The candidate loop of POST /report: skip candidates whose image is
unreadable, skip candidates whose Oracle call throws, and break with a
`duplicateInfo` at the first candidate scoring at least 80. -/
def scanForDuplicate : List Candidate → Option DuplicateInfo
  | [] => none
  | c :: rest =>
    if c.imageReadable then
      match c.oracle with
      | Except.ok sim =>
        if 80 ≤ sim.similarityScore then
          some ⟨c.id, sim.similarityScore, c.distance, sim.reasoning⟩
        else scanForDuplicate rest
      | Except.error _ => scanForDuplicate rest
    else scanForDuplicate rest

/-- A candidate "matches" when its image is readable, the Oracle call
succeeds and the score reaches the fixed threshold 80. -/
def candidateMatches (c : Candidate) : Bool :=
  c.imageReadable &&
    match c.oracle with
    | Except.ok sim => decide (80 ≤ sim.similarityScore)
    | Except.error _ => false

/-- A candidate "fails" when its image cannot be read or the Oracle call
throws. -/
def candidateFails (c : Candidate) : Prop :=
  c.imageReadable = false ∨ ∃ e, c.oracle = Except.error e

/-! ## Database state and the operations that mutate it -/

/-- The `reports` table together with the autoincrement counter. -/
structure DbState where
  reports : List Report
  nextId : Nat
deriving DecidableEq, Repr

/-- Input of POST /report after classification: the fields the verified
logic reads, plus the nearby-candidate list produced by the geo query and
the Oracle outcomes for each candidate. -/
structure IngestInput where
  description : String
  category : Option String
  severity : Option String
  createdAt : Int
  candidates : List Candidate
deriving DecidableEq, Repr

/-- The duplicate-branch primary update (`updatePrimaryQuery`): rows whose
id equals the linked primary's id get `duplicate_count + 1` and the new
report's id appended to `merged_reports`. -/
def updatePrimary (primaryId newId : Nat) (r : Report) : Report :=
  if r.id = primaryId then
    { r with duplicateCount := r.duplicateCount + 1,
             mergedReports := r.mergedReports ++ [newId] }
  else r

/-- The duplicate INSERT of POST /report: `is_primary = 0`, `duplicate_of`
and `similarity_score` from the scan result, `status = 'pending'`,
`priority = severity || 'MEDIUM'`. -/
def dupRecord (inp : IngestInput) (nid : Nat) (dl : Int) (info : DuplicateInfo) : Report :=
  { id := nid, description := inp.description, status := Status.pending,
    category := inp.category, severity := inp.severity,
    priority := jsOr inp.severity "MEDIUM",
    escalated := false, escalationNotified := false,
    slaDeadline := some dl, createdAt := inp.createdAt,
    isPrimary := false, duplicateOf := some info.primaryReportId,
    similarityScore := some info.similarityScore,
    duplicateCount := 1, mergedReports := [] }

/-- The new-unique INSERT of POST /report: `duplicate_count = 1`,
`is_primary = 1`, `status = 'pending'`, `priority = severity ||
'MEDIUM'`. -/
def primRecord (inp : IngestInput) (nid : Nat) (dl : Int) : Report :=
  { id := nid, description := inp.description, status := Status.pending,
    category := inp.category, severity := inp.severity,
    priority := jsOr inp.severity "MEDIUM",
    escalated := false, escalationNotified := false,
    slaDeadline := some dl, createdAt := inp.createdAt,
    isPrimary := true, duplicateOf := none, similarityScore := none,
    duplicateCount := 1, mergedReports := [] }

/-- POST /report. Computes the SLA deadline, runs the duplicate scan, and
inserts either a duplicate row (followed by the primary update) or a new
primary row. When the deadline is undefined, `toISOString()` throws before
any insert and the request fails with no state change. `escalated` and
`escalation_notified` are not columns of either INSERT and stay at the
store default `false` (schema pattern `BOOLEAN DEFAULT FALSE`, as for
`urgent`). -/
def ingest (inp : IngestInput) (s : DbState) : DbState :=
  match getSlaDeadline inp.category inp.severity inp.createdAt with
  | none => s
  | some dl =>
    match scanForDuplicate inp.candidates with
    | some info =>
      ⟨(s.reports ++ [dupRecord inp s.nextId dl info]).map
          (updatePrimary info.primaryReportId s.nextId),
       s.nextId + 1⟩
    | none =>
      ⟨s.reports ++ [primRecord inp s.nextId dl], s.nextId + 1⟩

/-- PATCH /report/:id with a validated status: the `resolved` branch also
clears `escalated` and `escalation_notified`. -/
def patchStatus (rid : Nat) (st : Status) (s : DbState) : DbState :=
  { s with reports := s.reports.map (fun r =>
      if r.id = rid then
        if st = Status.resolved then
          { r with status := Status.resolved,
                   escalated := false, escalationNotified := false }
        else { r with status := st }
      else r) }

/-- POST /report/:id/resolve. Both the successful-verification branch and
the AI-verification-failure branch run an UPDATE that sets
`status = 'resolved'`, `escalated = 0`, `escalation_notified = 0` (they
differ only in the stored resolution artifacts, outside this model).
`aiVerified` records which branch ran. -/
def resolveWithPhoto (rid : Nat) (_aiVerified : Bool) (s : DbState) : DbState :=
  { s with reports := s.reports.map (fun r =>
      if r.id = rid then
        { r with status := Status.resolved,
                 escalated := false, escalationNotified := false }
      else r) }

/-! ## Escalation sweep (`escalationService.js`) -/

/-- `status IN ('pending', 'verified')` from the sweep's candidate query. -/
def statusOpen : Status → Bool
  | Status.pending => true
  | Status.verified => true
  | Status.resolved => false

/-- `isOverdue`: false without a deadline, otherwise `now > deadline`. -/
def isOverdue (now : Int) (r : Report) : Bool :=
  match r.slaDeadline with
  | none => false
  | some d => decide (d < now)

/-- Sweep selection: the candidate query keeps `status IN
('pending','verified') AND escalated = 0`, and the loop body additionally
requires a deadline that is overdue. -/
def shouldEscalate (now : Int) (r : Report) : Bool :=
  statusOpen r.status && !r.escalated && isOverdue now r

/-- `escalateReport`: sets `escalated = 1` and `priority = 'HIGH'`; the
CASE expression maps `pending` to `pending` and `verified` to `verified`,
leaving the status unchanged. -/
def escalateReport (r : Report) : Report :=
  { r with escalated := true, priority := "HIGH" }

/-- `getHoursOverdue`: 0 without a deadline or when not past it, otherwise
`Math.floor((now - deadline) / (1000 * 60 * 60))`. -/
def getHoursOverdue (now : Int) (r : Report) : Int :=
  match r.slaDeadline with
  | none => 0
  | some d => if now ≤ d then 0 else Int.fdiv (now - d) 3600000

/-- Notification emitted by `notifySupervisors` for an escalated report,
restricted to the structured fields. -/
structure EscalationNotice where
  reportId : Nat
  category : Option String
  severity : Option String
  slaDeadline : Option Int
  hoursOverdue : Int
deriving DecidableEq, Repr

/-- One sweep (`checkForEscalations`): every selected overdue report is
escalated; all other rows are left untouched. -/
def sweep (now : Int) (s : DbState) : DbState :=
  { s with reports := s.reports.map (fun r =>
      if shouldEscalate now r then escalateReport r else r) }

/-- Notifications emitted by one sweep, built from the pre-update rows. -/
def sweepNotifications (now : Int) (s : DbState) : List EscalationNotice :=
  (s.reports.filter (shouldEscalate now)).map (fun r =>
    ⟨r.id, r.category, r.severity, r.slaDeadline, getHoursOverdue now r⟩)

/-- The operations of the verified core that mutate the store. -/
inductive Op
  | ingest (inp : IngestInput)
  | patchStatus (rid : Nat) (st : Status)
  | resolvePhoto (rid : Nat) (aiVerified : Bool)
  | sweep (now : Int)

/-- One step of the system. -/
def step (s : DbState) : Op → DbState
  | Op.ingest inp => ingest inp s
  | Op.patchStatus rid st => patchStatus rid st s
  | Op.resolvePhoto rid ok => resolveWithPhoto rid ok s
  | Op.sweep now => sweep now s

/-- The empty store (fresh database). -/
def initState : DbState := ⟨[], 1⟩

/-- Running a sequence of operations from the empty store. -/
def run (ops : List Op) : DbState := ops.foldl step initState

/-- Representation invariant of one row: `isPrimary == (duplicateOf ==
null)`, and on primaries `duplicateCount == 1 + |mergedReports|`. -/
def PrimaryInv (r : Report) : Prop :=
  (r.isPrimary = true ↔ r.duplicateOf = none) ∧
  (r.isPrimary = true → r.duplicateCount = 1 + r.mergedReports.length)

/-- Representation invariant of the whole table. -/
def ReportsInv (s : DbState) : Prop := ∀ r ∈ s.reports, PrimaryInv r

/-- Escalation invariant: an escalated report is never resolved. -/
def EscInv (s : DbState) : Prop :=
  ∀ r ∈ s.reports, r.escalated = true → r.status ≠ Status.resolved

/-- No report has `escalation_notified` set. -/
def NotifiedFalse (s : DbState) : Prop :=
  ∀ r ∈ s.reports, r.escalationNotified = false

/-! ## Hotspot clustering (`predictiveAnalytics.js`, `clusterLocations`) -/

/-- Report fields read by the analytics code. -/
structure GeoReport where
  latitude : ℚ
  longitude : ℚ
  category : Option String
  severity : Option String
  createdAt : Int
deriving DecidableEq, Repr

/-- Cluster as built by `clusterLocations`. Members are kept with their
index in the input list (the JavaScript `visited` set is keyed by index);
the first member is the seed. The bookkeeping histograms
(`categories`/`severity`) are not referenced by any verified property and
are omitted. -/
structure Cluster where
  centerLat : ℚ
  centerLng : ℚ
  members : List (Nat × GeoReport)
  count : Nat
deriving DecidableEq, Repr

/-- The membership test of the inner scan: `calculateDistance(seed, x) <=
radius`. The distance function itself (the haversine formula, built from
floating-point trigonometry) is passed as a parameter `dist`; the
clustering logic only compares its value with the radius. -/
def near (dist : ℚ → ℚ → ℚ → ℚ → ℚ) (radius : ℚ) (seed x : GeoReport) : Bool :=
  decide (dist seed.latitude seed.longitude x.latitude x.longitude ≤ radius)

/-- Builds one cluster record: members are the seed followed by the
reports collected by the inner scan; the center starts at the seed's
coordinates and is recomputed as the arithmetic mean of all member
coordinates when the cluster has more than one member. -/
def mkCluster (seed : Nat × GeoReport) (mems : List (Nat × GeoReport)) : Cluster :=
  let all := seed :: mems
  let n : ℚ := all.length
  let centerLat :=
    if 1 < all.length then ((all.map (fun x => x.2.latitude)).sum) / n
    else seed.2.latitude
  let centerLng :=
    if 1 < all.length then ((all.map (fun x => x.2.longitude)).sum) / n
    else seed.2.longitude
  ⟨centerLat, centerLng, all, all.length⟩

/-- The outer `forEach` of `clusterLocations` over the indexed report
list: skip visited indices; otherwise collect the not-yet-visited later
reports within `radius` of the seed, mark them (and the seed) visited,
and continue. -/
def buildClusters (dist : ℚ → ℚ → ℚ → ℚ → ℚ) (radius : ℚ) :
    List (Nat × GeoReport) → List Nat → List Cluster
  | [], _ => []
  | (i, r) :: rest, visited =>
    if i ∈ visited then buildClusters dist radius rest visited
    else
      let mems := rest.filter (fun x => decide (x.1 ∉ visited) && near dist radius r x.2)
      mkCluster (i, r) mems ::
        buildClusters dist radius rest (i :: mems.map Prod.fst ++ visited)

/-- `clusterLocations(reports, radius)` with the distance function as a
parameter. -/
def clusterLocations (dist : ℚ → ℚ → ℚ → ℚ → ℚ) (reports : List GeoReport)
    (radius : ℚ) : List Cluster :=
  buildClusters dist radius reports.enum []

/-- `calculateGrowthRate`: split members at `now - 7 days`; 100 with no
older reports, 0 with no recent reports, otherwise
`(recent - older) / older * 100`. -/
def calculateGrowthRate (now : Int) (reports : List GeoReport) : ℚ :=
  let oneWeekAgo := now - 7 * 24 * 60 * 60 * 1000
  let recentReports := reports.filter (fun r => decide (oneWeekAgo ≤ r.createdAt))
  let olderReports := reports.filter (fun r => decide (r.createdAt < oneWeekAgo))
  if olderReports.length = 0 then 100
  else if recentReports.length = 0 then 0
  else ((recentReports.length : ℚ) - (olderReports.length : ℚ)) /
        (olderReports.length : ℚ) * 100

/-! ## Trend forecasting (`predictiveAnalytics.js`, `linearRegression`
and `predictTrends`) -/

/-- `linearRegression(x, y)`: ordinary least squares over the paired
samples. The source accumulates the four sums in one loop over the
indices of `x`; the callers always pass `x` and `y` of equal length. -/
def linearRegression (x y : List ℚ) : ℚ × ℚ :=
  let n : ℚ := x.length
  let sumX := x.sum
  let sumY := y.sum
  let sumXY := (List.zipWith (· * ·) x y).sum
  let sumXX := (List.zipWith (· * ·) x x).sum
  let slope := (n * sumXY - sumX * sumY) / (n * sumXX - sumX * sumX)
  let intercept := (sumY - slope * sumX) / n
  (slope, intercept)

/-- JavaScript `Math.round`: round half toward positive infinity. -/
def jsRound (q : ℚ) : Int := ⌊q + 1 / 2⌋

/-- Trend label assigned by `predictTrends`. -/
inductive Trend
  | increasing
  | decreasing
  | stable
deriving DecidableEq, Repr

/-- Per-category output of `predictTrends`. -/
structure CategoryPrediction where
  slope : ℚ
  intercept : ℚ
  predicted : List (ℚ × Int)
  trend : Trend
deriving DecidableEq, Repr

/-- `data.map((item, index) => index)`: the regression abscissae
`0..n-1`. -/
def olsX (n : Nat) : List ℚ :=
  (List.range n).map (fun i => (Nat.cast i : ℚ))

/-- The per-category body of `predictTrends`: categories with fewer than
2 data points are skipped (`none`); otherwise `x = 0..n-1`, `y = counts`,
OLS slope/intercept, predictions `max(0, round(slope * nextIndex +
intercept))` for `nextIndex = x[n-1] + i`, `i = 1..periodsAhead`, and the
trend from the sign of the slope. -/
def predictForCategory (counts : List ℚ) (periodsAhead : Nat) :
    Option CategoryPrediction :=
  if counts.length < 2 then none
  else
    let x : List ℚ := olsX counts.length
    let reg := linearRegression x counts
    let slope := reg.1
    let intercept := reg.2
    let lastX : ℚ := x.getLastD 0
    let future := (List.range periodsAhead).map (fun i =>
      let nextIndex := lastX + ((Nat.cast i : ℚ) + 1)
      (nextIndex, max 0 (jsRound (slope * nextIndex + intercept))))
    some ⟨slope, intercept, future,
      if 0 < slope then Trend.increasing
      else if slope < 0 then Trend.decreasing
      else Trend.stable⟩

/-! ## Theorems -/

/-- Claim C2: for every category and severity, the SLA hours are the
category-override hours whenever the category has an entry in the override
table, regardless of the severity-derived value (the two tables are never
compared); otherwise they are the severity-table hours, defaulting to
MEDIUM (24h) when severity is absent; `deadlineHours('POTHOLE','LOW') =
24` even though severity LOW alone would give 72; and the SLA deadline is
`createdAt` plus the hours, in hours. -/
theorem sla_category_override_wins :
    (∀ (c : String) (sev : Option String) (h : Nat),
        categorySla c = some h → slaHours (some c) sev = some h) ∧
    (∀ (cat sev : Option String),
        cat.bind categorySla = none →
        slaHours cat sev = severitySla (jsOr sev "MEDIUM")) ∧
    (∀ cat : Option String,
        cat.bind categorySla = none → slaHours cat none = some 24) ∧
    slaHours (some "POTHOLE") (some "LOW") = some 24 ∧
    severitySla "LOW" = some 72 ∧
    (∀ (cat sev : Option String) (t : Int) (h : Nat),
        slaHours cat sev = some h →
        getSlaDeadline cat sev t = some (t + (h : Int) * 3600000)) := by
  refine ⟨?_, ?_, ?_, rfl, rfl, ?_⟩
  · intro c sev h hc
    simp [slaHours, Option.bind, hc]
  · intro cat sev h
    simp only [slaHours, h]
  · intro cat h
    simp only [slaHours, h]
    rfl
  · intro cat sev t h hs
    simp [getSlaDeadline, hs]

/-- Witness for `sla_category_override_wins` at concrete inputs. -/
theorem sla_category_override_wins_witness :
    slaHours (some "GARBAGE_OVERFLOW") (some "LOW") = some 6 ∧
    slaHours (some "NOT_A_CATEGORY") (some "HIGH") = severitySla "HIGH" ∧
    slaHours (some "NOT_A_CATEGORY") none = some 24 ∧
    getSlaDeadline (some "POTHOLE") (some "LOW") 0 = some (0 + (24 : Int) * 3600000) := by
  refine ⟨?_, ?_, ?_, ?_⟩
  · exact sla_category_override_wins.1 "GARBAGE_OVERFLOW" (some "LOW") 6 rfl
  · exact sla_category_override_wins.2.1 (some "NOT_A_CATEGORY") (some "HIGH") rfl
  · exact sla_category_override_wins.2.2.1 (some "NOT_A_CATEGORY") rfl
  · exact sla_category_override_wins.2.2.2.2.2 (some "POTHOLE") (some "LOW") 0 24 rfl

/-- Claim C8: for every cluster member list split into recent (createdAt
within the last 7 days) and older (the rest): growthRate is 100 when older
is empty; 0 when recent is empty and older is nonempty; otherwise
`(recent - older) / older * 100`; and recent/older partition the members. -/
theorem growth_rate_cases (now : Int) (l : List GeoReport) :
    ((l.filter (fun r => decide (r.createdAt < now - 7 * 24 * 60 * 60 * 1000))).length = 0 →
      calculateGrowthRate now l = 100) ∧
    ((l.filter (fun r => decide (r.createdAt < now - 7 * 24 * 60 * 60 * 1000))).length ≠ 0 →
     (l.filter (fun r => decide (now - 7 * 24 * 60 * 60 * 1000 ≤ r.createdAt))).length = 0 →
      calculateGrowthRate now l = 0) ∧
    (∀ a b : Nat,
      (l.filter (fun r => decide (now - 7 * 24 * 60 * 60 * 1000 ≤ r.createdAt))).length = a →
      (l.filter (fun r => decide (r.createdAt < now - 7 * 24 * 60 * 60 * 1000))).length = b →
      b ≠ 0 → a ≠ 0 →
      calculateGrowthRate now l = ((a : ℚ) - (b : ℚ)) / (b : ℚ) * 100) ∧
    (l.filter (fun r => decide (now - 7 * 24 * 60 * 60 * 1000 ≤ r.createdAt))).length +
      (l.filter (fun r => decide (r.createdAt < now - 7 * 24 * 60 * 60 * 1000))).length
      = l.length := by
  refine ⟨?_, ?_, ?_, ?_⟩
  · intro h0
    simp only [calculateGrowthRate]
    rw [if_pos h0]
  · intro hb ha
    simp only [calculateGrowthRate]
    rw [if_neg hb, if_pos ha]
  · intro a b ha hb hbne hane
    simp only [calculateGrowthRate]
    rw [if_neg (by rw [hb]; exact hbne), if_neg (by rw [ha]; exact hane), ha, hb]
  · have hcompl : ∀ r : GeoReport,
        (fun r : GeoReport => decide (r.createdAt < now - 7 * 24 * 60 * 60 * 1000)) r =
        !((fun r : GeoReport => decide (now - 7 * 24 * 60 * 60 * 1000 ≤ r.createdAt)) r) := by
      intro r
      simp only [← decide_not, decide_eq_decide]
      omega
    have hperm := List.filter_append_perm
      (fun r : GeoReport => decide (now - 7 * 24 * 60 * 60 * 1000 ≤ r.createdAt)) l
    have hlen := hperm.length_eq
    rw [List.length_append] at hlen
    rw [← hlen]
    congr 1
    exact congrArg List.length (List.filter_congr (fun r _ => (hcompl r).symm)).symm

/-- Witness for `growth_rate_cases`: the spec's three concrete scenarios
(0 older / 2 recent gives 100; 2 older / 0 recent gives 0; 1 older /
3 recent gives 200). -/
theorem growth_rate_cases_witness :
    calculateGrowthRate 1000000000000
      [⟨0, 0, none, none, 1000000000000⟩, ⟨0, 0, none, none, 1000000000000⟩] = 100 ∧
    calculateGrowthRate 1000000000000
      [⟨0, 0, none, none, 0⟩, ⟨0, 0, none, none, 0⟩] = 0 ∧
    calculateGrowthRate 1000000000000
      [⟨0, 0, none, none, 0⟩, ⟨0, 0, none, none, 1000000000000⟩,
       ⟨0, 0, none, none, 1000000000000⟩, ⟨0, 0, none, none, 1000000000000⟩] = 200 := by
  refine ⟨?_, ?_, ?_⟩
  · exact (growth_rate_cases 1000000000000 _).1 (by decide)
  · exact (growth_rate_cases 1000000000000 _).2.1 (by decide) (by decide)
  · have := (growth_rate_cases 1000000000000
      [⟨0, 0, none, none, 0⟩, ⟨0, 0, none, none, 1000000000000⟩,
       ⟨0, 0, none, none, 1000000000000⟩, ⟨0, 0, none, none, 1000000000000⟩]).2.2.1
      3 1 (by decide) (by decide) (by decide) (by decide)
    rw [this]
    norm_num

/-- Last abscissa `x[x.length - 1]` is `n - 1` for a nonempty range. -/
theorem olsX_getLastD (n : Nat) (hn : 1 ≤ n) : (olsX n).getLastD 0 = (n : ℚ) - 1 := by
  obtain ⟨m, rfl⟩ : ∃ m, n = m + 1 := ⟨n - 1, by omega⟩
  simp only [olsX, List.range_succ, List.map_append, List.map_singleton,
    List.getLastD_concat]
  push_cast
  ring

/-- Case analysis of the trend label produced from a slope. -/
theorem trend_of_slope (q : ℚ) :
    ((if 0 < q then Trend.increasing
      else if q < 0 then Trend.decreasing else Trend.stable) = Trend.increasing ↔ 0 < q) ∧
    ((if 0 < q then Trend.increasing
      else if q < 0 then Trend.decreasing else Trend.stable) = Trend.decreasing ↔ q < 0) ∧
    ((if 0 < q then Trend.increasing
      else if q < 0 then Trend.decreasing else Trend.stable) = Trend.stable ↔ q = 0) := by
  rcases lt_trichotomy (0 : ℚ) q with hs | hs | hs
  · rw [if_pos hs]
    refine ⟨⟨fun _ => hs, fun _ => rfl⟩,
      ⟨fun h => (by cases h), fun h => absurd hs (asymm h)⟩,
      ⟨fun h => (by cases h), fun h => absurd hs (by rw [h]; exact lt_irrefl 0)⟩⟩
  · rw [if_neg (by rw [← hs]; exact lt_irrefl 0), if_neg (by rw [← hs]; exact lt_irrefl 0)]
    refine ⟨⟨fun h => (by cases h), fun h => absurd h (by rw [← hs]; exact lt_irrefl 0)⟩,
      ⟨fun h => (by cases h), fun h => absurd h (by rw [← hs]; exact lt_irrefl 0)⟩,
      ⟨fun _ => hs.symm, fun _ => rfl⟩⟩
  · rw [if_neg (asymm hs), if_pos hs]
    refine ⟨⟨fun h => (by cases h), fun h => absurd h (asymm hs)⟩,
      ⟨fun _ => hs, fun _ => rfl⟩,
      ⟨fun h => (by cases h), fun h => absurd hs (by rw [h]; exact lt_irrefl 0)⟩⟩

/-- Claim C9: for every category with at least 2 data points, the
forecaster computes the OLS slope and intercept over `x = 0..n-1` and
`y = counts`, predicts `max(0, round(slope * x + intercept))` for the next
4 indices `n..n+3`, and sets the trend to increasing iff `slope > 0`,
decreasing iff `slope < 0`, else stable; categories with fewer than 2
points are skipped; for the series `[1,2,3,4]` this yields slope 1, trend
increasing, and next-period prediction 5 at index 4. -/
theorem predict_trends_ols (counts : List ℚ) :
    (counts.length < 2 → predictForCategory counts 4 = none) ∧
    (2 ≤ counts.length →
      (predictForCategory counts 4).isSome = true ∧
      ∀ cp : CategoryPrediction, predictForCategory counts 4 = some cp →
        cp.slope =
          ((counts.length : ℚ) * (List.zipWith (· * ·) (olsX counts.length) counts).sum -
            (olsX counts.length).sum * counts.sum) /
          ((counts.length : ℚ) *
              (List.zipWith (· * ·) (olsX counts.length) (olsX counts.length)).sum -
            (olsX counts.length).sum * (olsX counts.length).sum) ∧
        cp.intercept = (counts.sum - cp.slope * (olsX counts.length).sum) /
          (counts.length : ℚ) ∧
        cp.predicted.map Prod.fst =
          [(counts.length : ℚ), (counts.length : ℚ) + 1,
           (counts.length : ℚ) + 2, (counts.length : ℚ) + 3] ∧
        (∀ p ∈ cp.predicted, p.2 = max 0 (jsRound (cp.slope * p.1 + cp.intercept))) ∧
        (cp.trend = Trend.increasing ↔ 0 < cp.slope) ∧
        (cp.trend = Trend.decreasing ↔ cp.slope < 0) ∧
        (cp.trend = Trend.stable ↔ cp.slope = 0)) ∧
    predictForCategory [1, 2, 3, 4] 4 =
      some ⟨1, 1, [(4, 5), (5, 6), (6, 7), (7, 8)], Trend.increasing⟩ := by
  refine ⟨?_, ?_, ?_⟩
  · intro h
    simp [predictForCategory, h]
  · intro h
    have hlt : ¬ counts.length < 2 := Nat.not_lt.mpr h
    have hcp : predictForCategory counts 4 = some
        { slope := (linearRegression (olsX counts.length) counts).1,
          intercept := (linearRegression (olsX counts.length) counts).2,
          predicted := (List.range 4).map (fun i =>
            ((olsX counts.length).getLastD 0 + ((Nat.cast i : ℚ) + 1),
             max 0 (jsRound ((linearRegression (olsX counts.length) counts).1 *
               ((olsX counts.length).getLastD 0 + ((Nat.cast i : ℚ) + 1)) +
               (linearRegression (olsX counts.length) counts).2)))),
          trend :=
            if 0 < (linearRegression (olsX counts.length) counts).1 then Trend.increasing
            else if (linearRegression (olsX counts.length) counts).1 < 0 then
              Trend.decreasing
            else Trend.stable } := by
      simp only [predictForCategory, if_neg hlt]
    refine ⟨by rw [hcp]; rfl, ?_⟩
    intro cp hcp'
    have hval := Option.some.inj (hcp'.symm.trans hcp)
    subst hval
    have hlast : (olsX counts.length).getLastD 0 = (counts.length : ℚ) - 1 :=
      olsX_getLastD counts.length (by omega)
    have hlen : (olsX counts.length).length = counts.length := by
      simp [olsX]
    refine ⟨?_, ?_, ?_, ?_, ?_, ?_, ?_⟩
    · show (linearRegression (olsX counts.length) counts).1 = _
      simp only [linearRegression, hlen]
    · show (linearRegression (olsX counts.length) counts).2 = _
      simp only [linearRegression, hlen]
    · dsimp only
      rw [List.map_map]
      have h4 : List.range 4 = [0, 1, 2, 3] := rfl
      rw [h4]
      simp only [List.map_cons, List.map_nil, Function.comp_apply, hlast,
        List.cons.injEq, and_true]
      refine ⟨by push_cast; ring, by push_cast; ring, by push_cast; ring,
        by push_cast; ring⟩
    · intro p hp
      simp only [List.mem_map] at hp
      obtain ⟨i, _, rfl⟩ := hp
      rfl
    · exact (trend_of_slope _).1
    · exact (trend_of_slope _).2.1
    · exact (trend_of_slope _).2.2
  · have hlt : ¬ ([1, 2, 3, 4] : List ℚ).length < 2 := by norm_num
    have hols : olsX ([1, 2, 3, 4] : List ℚ).length = [0, 1, 2, 3] := by
      norm_num [olsX, List.range_succ]
    have hreg : linearRegression [0, 1, 2, 3] [1, 2, 3, 4] = (1, 1) := by
      norm_num [linearRegression, List.zipWith]
    simp only [predictForCategory, if_neg hlt, hols, hreg]
    norm_num [jsRound, List.range_succ, List.getLastD]

/-- Witness for `predict_trends_ols`: a one-point series is skipped, and
the series `[1,2,3,4]` produces an increasing forecast predicting 5 at
index 4. -/
theorem predict_trends_ols_witness :
    predictForCategory [3] 4 = none ∧
    ∃ cp : CategoryPrediction, predictForCategory [1, 2, 3, 4] 4 = some cp ∧
      cp.slope = 1 ∧ cp.trend = Trend.increasing ∧ cp.predicted.headD (0, 0) = (4, 5) := by
  refine ⟨(predict_trends_ols [3]).1 (by norm_num), ?_⟩
  have hsome := ((predict_trends_ols [1, 2, 3, 4]).2.1 (by norm_num)).1
  obtain ⟨cp, hcp⟩ := Option.isSome_iff_exists.mp hsome
  have hconc := (predict_trends_ols [1, 2, 3, 4]).2.2
  rw [hcp] at hconc
  have hval := Option.some.inj hconc
  exact ⟨cp, hcp, by rw [hval], by rw [hval], by rw [hval]; rfl⟩

/-! ### Lemmas about the duplicate scan -/

/-- A failing candidate never matches. -/
theorem not_matches_of_fails (c : Candidate) (h : candidateFails c) :
    candidateMatches c = false := by
  obtain ⟨cid, cdist, cread, cor⟩ := c
  rcases h with h | ⟨e, h⟩
  · simp only at h
    simp [candidateMatches, h]
  · simp only at h
    subst h
    simp [candidateMatches]

/-- The scan steps over a non-matching candidate. -/
theorem scan_skip (c : Candidate) (rest : List Candidate)
    (h : candidateMatches c = false) :
    scanForDuplicate (c :: rest) = scanForDuplicate rest := by
  obtain ⟨cid, cdist, cread, cor⟩ := c
  cases cread with
  | false => simp [scanForDuplicate]
  | true =>
    cases cor with
    | error e => simp [scanForDuplicate]
    | ok sim =>
      have hnot : ¬ (80 ≤ sim.similarityScore) := by
        simpa [candidateMatches] using h
      simp [scanForDuplicate, hnot]

/-- With no matching candidate the scan returns `none`. -/
theorem scan_none (l : List Candidate)
    (h : ∀ x ∈ l, candidateMatches x = false) :
    scanForDuplicate l = none := by
  induction l with
  | nil => rfl
  | cons a t ih =>
    rw [scan_skip a t (h a (List.mem_cons_self a t))]
    exact ih (fun x hx => h x (List.mem_cons_of_mem a hx))

/-- The scan stops at the first matching candidate and records exactly
its id, score, distance and reasoning, checking nothing after it. -/
theorem scan_first_match (pre post : List Candidate) (c : Candidate)
    (sim : SimilarityResult)
    (hpre : ∀ x ∈ pre, candidateMatches x = false)
    (hread : c.imageReadable = true) (hok : c.oracle = Except.ok sim)
    (hscore : 80 ≤ sim.similarityScore) :
    scanForDuplicate (pre ++ c :: post) =
      some ⟨c.id, sim.similarityScore, c.distance, sim.reasoning⟩ := by
  induction pre with
  | nil =>
    obtain ⟨cid, cdist, cread, cor⟩ := c
    simp only at hread hok
    subst hread
    subst hok
    simp [scanForDuplicate, hscore]
  | cons a t ih =>
    rw [List.cons_append, scan_skip a _ (hpre a (List.mem_cons_self a t))]
    exact ih (fun x hx => hpre x (List.mem_cons_of_mem a hx))

/-- When the scan declares a duplicate, the declared candidate is one of
the list whose image was readable and whose Oracle call succeeded with a
score at least 80. -/
theorem scan_some (l : List Candidate) (info : DuplicateInfo)
    (h : scanForDuplicate l = some info) :
    ∃ c ∈ l, ∃ sim : SimilarityResult,
      c.imageReadable = true ∧ c.oracle = Except.ok sim ∧
      80 ≤ sim.similarityScore ∧
      info = ⟨c.id, sim.similarityScore, c.distance, sim.reasoning⟩ := by
  induction l with
  | nil => simp [scanForDuplicate] at h
  | cons a t ih =>
    by_cases hm : candidateMatches a = true
    · obtain ⟨cid, cdist, cread, cor⟩ := a
      cases cread with
      | false => simp [candidateMatches] at hm
      | true =>
        cases cor with
        | error e => simp [candidateMatches] at hm
        | ok sim =>
          have hscore : 80 ≤ sim.similarityScore := by
            simpa [candidateMatches] using hm
          rw [show scanForDuplicate
                (Candidate.mk cid cdist true (Except.ok sim) :: t) =
              some ⟨cid, sim.similarityScore, cdist, sim.reasoning⟩ from by
            simp [scanForDuplicate, hscore]] at h
          exact ⟨⟨cid, cdist, true, Except.ok sim⟩, List.mem_cons_self _ _,
            sim, rfl, rfl, hscore, (Option.some.inj h).symm⟩
    · rw [scan_skip a t (Bool.not_eq_true _ ▸ hm)] at h
      obtain ⟨c, hc, sim, hrest⟩ := ih h
      exact ⟨c, List.mem_cons_of_mem a hc, sim, hrest⟩

/-- Evaluation of `ingest` when the scan finds nothing: a new primary row
is appended. -/
theorem ingest_eq_primary (inp : IngestInput) (s : DbState) (dl : Int)
    (hdl : getSlaDeadline inp.category inp.severity inp.createdAt = some dl)
    (hscan : scanForDuplicate inp.candidates = none) :
    ingest inp s = ⟨s.reports ++ [primRecord inp s.nextId dl], s.nextId + 1⟩ := by
  simp only [ingest, hdl, hscan]

/-- Evaluation of `ingest` when the scan declares a duplicate: the
duplicate row is appended and the primary update is applied. -/
theorem ingest_eq_dup (inp : IngestInput) (s : DbState) (dl : Int)
    (info : DuplicateInfo)
    (hdl : getSlaDeadline inp.category inp.severity inp.createdAt = some dl)
    (hscan : scanForDuplicate inp.candidates = some info) :
    ingest inp s =
      ⟨(s.reports ++ [dupRecord inp s.nextId dl info]).map
          (updatePrimary info.primaryReportId s.nextId),
        s.nextId + 1⟩ := by
  simp only [ingest, hdl, hscan]

/-- Claim C1: duplicate resolution is first-match-wins — the scan iterates
the candidate list in order and at the first candidate scoring at least 80
records it (with score, distance and reasoning) and stops, checking no
further candidates; when no checked candidate reaches 80 the report is
created as a new primary. -/
theorem duplicate_scan_first_match_wins :
    (∀ (pre post : List Candidate) (c : Candidate) (sim : SimilarityResult),
      (∀ x ∈ pre, candidateMatches x = false) →
      c.imageReadable = true → c.oracle = Except.ok sim →
      80 ≤ sim.similarityScore →
      scanForDuplicate (pre ++ c :: post) =
        some ⟨c.id, sim.similarityScore, c.distance, sim.reasoning⟩) ∧
    (∀ (inp : IngestInput) (s : DbState) (dl : Int),
      (∀ x ∈ inp.candidates, candidateMatches x = false) →
      getSlaDeadline inp.category inp.severity inp.createdAt = some dl →
      (ingest inp s).reports = s.reports ++ [primRecord inp s.nextId dl] ∧
      (primRecord inp s.nextId dl).isPrimary = true) :=
  ⟨scan_first_match,
   fun inp s dl hnm hdl => by
     rw [ingest_eq_primary inp s dl hdl (scan_none _ hnm)]
     exact ⟨rfl, rfl⟩⟩

/-- Witness for `duplicate_scan_first_match_wins`: with a 50%-scoring
candidate first, an 85%-scoring candidate 10 m away second, and a
90%-scoring candidate after it, the scan declares the 85% candidate and
stops; and a candidate list with no match yields a primary insert. -/
theorem duplicate_scan_first_match_wins_witness :
    scanForDuplicate
        [⟨1, 5, true, Except.ok ⟨50, "different issue"⟩⟩,
         ⟨2, 10, true, Except.ok ⟨85, "same pothole"⟩⟩,
         ⟨3, 12, true, Except.ok ⟨90, "later better match"⟩⟩] =
      some ⟨2, 85, 10, "same pothole"⟩ ∧
    (ingest ⟨"d", some "POTHOLE", some "LOW", 0,
        [⟨1, 5, true, Except.ok ⟨50, "different issue"⟩⟩]⟩ ⟨[], 1⟩).reports =
      [] ++ [primRecord ⟨"d", some "POTHOLE", some "LOW", 0,
        [⟨1, 5, true, Except.ok ⟨50, "different issue"⟩⟩]⟩ 1 86400000] := by
  constructor
  · exact duplicate_scan_first_match_wins.1
      [⟨1, 5, true, Except.ok ⟨50, "different issue"⟩⟩]
      [⟨3, 12, true, Except.ok ⟨90, "later better match"⟩⟩]
      ⟨2, 10, true, Except.ok ⟨85, "same pothole"⟩⟩ ⟨85, "same pothole"⟩
      (by decide) rfl rfl (by decide)
  · exact (duplicate_scan_first_match_wins.2
      ⟨"d", some "POTHOLE", some "LOW", 0,
        [⟨1, 5, true, Except.ok ⟨50, "different issue"⟩⟩]⟩ ⟨[], 1⟩ 86400000
      (by decide) (by decide)).1

/-- Claim C6: a failed comparison never blocks the scan and never creates
a duplicate — an unreadable image or a throwing Oracle call makes the scan
continue with the next candidate; a declared duplicate always comes from a
successful comparison; and when every comparison fails the report is
ingested as a new primary rather than the ingestion aborting. -/
theorem failed_comparison_never_blocks :
    (∀ (c : Candidate) (rest : List Candidate), candidateFails c →
      scanForDuplicate (c :: rest) = scanForDuplicate rest) ∧
    (∀ (l : List Candidate) (info : DuplicateInfo),
      scanForDuplicate l = some info →
      ∃ c ∈ l, ∃ sim : SimilarityResult, c.imageReadable = true ∧
        c.oracle = Except.ok sim ∧ 80 ≤ sim.similarityScore ∧
        info = ⟨c.id, sim.similarityScore, c.distance, sim.reasoning⟩) ∧
    (∀ (inp : IngestInput) (s : DbState) (dl : Int),
      (∀ x ∈ inp.candidates, candidateFails x) →
      getSlaDeadline inp.category inp.severity inp.createdAt = some dl →
      (ingest inp s).reports = s.reports ++ [primRecord inp s.nextId dl] ∧
      (primRecord inp s.nextId dl).isPrimary = true) :=
  ⟨fun c rest h => scan_skip c rest (not_matches_of_fails c h),
   scan_some,
   fun inp s dl hfail hdl => by
     rw [ingest_eq_primary inp s dl hdl
       (scan_none _ (fun x hx => not_matches_of_fails x (hfail x hx)))]
     exact ⟨rfl, rfl⟩⟩

/-- Witness for `failed_comparison_never_blocks`: a throwing Oracle call
and an unreadable image are both stepped over, and a list in which every
comparison fails produces a primary insert. -/
theorem failed_comparison_never_blocks_witness :
    scanForDuplicate
        [⟨1, 5, true, Except.error ()⟩,
         ⟨2, 10, true, Except.ok ⟨85, "same pothole"⟩⟩] =
      scanForDuplicate [⟨2, 10, true, Except.ok ⟨85, "same pothole"⟩⟩] ∧
    scanForDuplicate
        [⟨1, 5, false, Except.ok ⟨99, "unreadable image"⟩⟩] =
      scanForDuplicate [] ∧
    (ingest ⟨"d", some "OTHER", none, 0,
        [⟨1, 5, true, Except.error ()⟩,
         ⟨2, 7, false, Except.ok ⟨99, "unreadable image"⟩⟩]⟩ ⟨[], 1⟩).reports =
      [] ++ [primRecord ⟨"d", some "OTHER", none, 0,
        [⟨1, 5, true, Except.error ()⟩,
         ⟨2, 7, false, Except.ok ⟨99, "unreadable image"⟩⟩]⟩ 1 86400000] := by
  refine ⟨?_, ?_, ?_⟩
  · exact failed_comparison_never_blocks.1 _ _ (Or.inr ⟨(), rfl⟩)
  · exact failed_comparison_never_blocks.1 _ _ (Or.inl rfl)
  · refine (failed_comparison_never_blocks.2.2
      ⟨"d", some "OTHER", none, 0,
        [⟨1, 5, true, Except.error ()⟩,
         ⟨2, 7, false, Except.ok ⟨99, "unreadable image"⟩⟩]⟩ ⟨[], 1⟩ 86400000
      ?_ (by decide)).1
    intro x hx
    simp only [List.mem_cons, List.not_mem_nil, or_false] at hx
    rcases hx with rfl | rfl
    · exact Or.inr ⟨(), rfl⟩
    · exact Or.inl rfl

/-! ### Lemmas about ingestion and the representation invariant -/

/-- `ingest` is a no-op when the SLA deadline is undefined (the request
fails with a 500 before any insert). -/
theorem ingest_eq_skip (inp : IngestInput) (s : DbState)
    (hdl : getSlaDeadline inp.category inp.severity inp.createdAt = none) :
    ingest inp s = s := by
  simp only [ingest, hdl]

/-- The primary update leaves every field other than `duplicateCount` and
`mergedReports` unchanged. -/
theorem updatePrimary_fields (pid nid : Nat) (r : Report) :
    (updatePrimary pid nid r).escalated = r.escalated ∧
    (updatePrimary pid nid r).status = r.status ∧
    (updatePrimary pid nid r).escalationNotified = r.escalationNotified ∧
    (updatePrimary pid nid r).isPrimary = r.isPrimary ∧
    (updatePrimary pid nid r).duplicateOf = r.duplicateOf ∧
    (updatePrimary pid nid r).id = r.id := by
  unfold updatePrimary
  split
  · exact ⟨rfl, rfl, rfl, rfl, rfl, rfl⟩
  · exact ⟨rfl, rfl, rfl, rfl, rfl, rfl⟩

/-- The primary update preserves the row invariant: the count and the
merged list grow together. -/
theorem updatePrimary_primaryInv (pid nid : Nat) (r : Report)
    (h : PrimaryInv r) : PrimaryInv (updatePrimary pid nid r) := by
  unfold updatePrimary
  split
  · refine ⟨h.1, fun hp => ?_⟩
    have hc := h.2 hp
    simp only [List.length_append, List.length_singleton]
    omega
  · exact h

/-- The fresh primary row satisfies the row invariant. -/
theorem primRecord_primaryInv (inp : IngestInput) (nid : Nat) (dl : Int) :
    PrimaryInv (primRecord inp nid dl) := by
  exact ⟨by simp [primRecord], by simp [primRecord]⟩

/-- The fresh duplicate row satisfies the row invariant. -/
theorem dupRecord_primaryInv (inp : IngestInput) (nid : Nat) (dl : Int)
    (info : DuplicateInfo) : PrimaryInv (dupRecord inp nid dl info) := by
  constructor
  · simp [dupRecord]
  · intro h
    simp [dupRecord] at h

/-- Claim C3: ingestion preserves the primary/duplicate representation
invariant — every created report satisfies `isPrimary == (duplicateOf ==
null)`; a new primary starts with `duplicateCount = 1` and empty
`mergedReports`; a duplicate creation increments the linked primary's
`duplicateCount` by exactly 1 and appends exactly the new report's id to
its `mergedReports` (the modelled primary update always succeeds). -/
theorem ingestion_preserves_representation :
    (∀ (inp : IngestInput) (s : DbState),
      ReportsInv s → ReportsInv (ingest inp s)) ∧
    (∀ (inp : IngestInput) (nid : Nat) (dl : Int),
      (primRecord inp nid dl).isPrimary = true ∧
      (primRecord inp nid dl).duplicateOf = none ∧
      (primRecord inp nid dl).duplicateCount = 1 ∧
      (primRecord inp nid dl).mergedReports = []) ∧
    (∀ (inp : IngestInput) (nid : Nat) (dl : Int) (info : DuplicateInfo),
      (dupRecord inp nid dl info).isPrimary = false ∧
      (dupRecord inp nid dl info).duplicateOf = some info.primaryReportId) ∧
    (∀ (pid nid : Nat) (r : Report),
      (r.id = pid →
        updatePrimary pid nid r =
          { r with duplicateCount := r.duplicateCount + 1,
                   mergedReports := r.mergedReports ++ [nid] }) ∧
      (r.id ≠ pid → updatePrimary pid nid r = r)) ∧
    (∀ (inp : IngestInput) (s : DbState) (dl : Int) (info : DuplicateInfo),
      getSlaDeadline inp.category inp.severity inp.createdAt = some dl →
      scanForDuplicate inp.candidates = some info →
      ∀ r ∈ s.reports,
        updatePrimary info.primaryReportId s.nextId r ∈ (ingest inp s).reports) := by
  refine ⟨?_, ?_, ?_, ?_, ?_⟩
  · intro inp s hInv
    cases hdl : getSlaDeadline inp.category inp.severity inp.createdAt with
    | none =>
      rw [ingest_eq_skip inp s hdl]
      exact hInv
    | some dl =>
      cases hscan : scanForDuplicate inp.candidates with
      | none =>
        rw [ingest_eq_primary inp s dl hdl hscan]
        intro r hr
        rcases List.mem_append.mp hr with h | h
        · exact hInv r h
        · rcases List.mem_singleton.mp h with rfl
          exact primRecord_primaryInv inp s.nextId dl
      | some info =>
        rw [ingest_eq_dup inp s dl info hdl hscan]
        intro r hr
        obtain ⟨r₀, hr₀, rfl⟩ := List.mem_map.mp hr
        apply updatePrimary_primaryInv
        rcases List.mem_append.mp hr₀ with h | h
        · exact hInv r₀ h
        · rcases List.mem_singleton.mp h with rfl
          exact dupRecord_primaryInv inp s.nextId dl info
  · intro inp nid dl
    exact ⟨rfl, rfl, rfl, rfl⟩
  · intro inp nid dl info
    exact ⟨rfl, rfl⟩
  · intro pid nid r
    constructor
    · intro h
      unfold updatePrimary
      rw [if_pos h]
    · intro h
      unfold updatePrimary
      rw [if_neg h]
  · intro inp s dl info hdl hscan r hr
    rw [ingest_eq_dup inp s dl info hdl hscan]
    exact List.mem_map.mpr ⟨r, List.mem_append.mpr (Or.inl hr), rfl⟩

/-- Witness for `ingestion_preserves_representation`: ingesting a
duplicate of an existing primary keeps the invariant, and the primary's
row gains one merged id. -/
theorem ingestion_preserves_representation_witness :
    ReportsInv (ingest
      ⟨"dup", some "POTHOLE", some "HIGH", 100, [⟨1, 10, true, Except.ok ⟨85, "same"⟩⟩]⟩
      ⟨[⟨1, "first", Status.pending, some "POTHOLE", some "HIGH", "HIGH", false, false,
          some 86400000, 0, true, none, none, 1, []⟩], 2⟩) ∧
    updatePrimary 1 2
        ⟨1, "first", Status.pending, some "POTHOLE", some "HIGH", "HIGH", false, false,
          some 86400000, 0, true, none, none, 1, []⟩ ∈
      (ingest
        ⟨"dup", some "POTHOLE", some "HIGH", 100, [⟨1, 10, true, Except.ok ⟨85, "same"⟩⟩]⟩
        ⟨[⟨1, "first", Status.pending, some "POTHOLE", some "HIGH", "HIGH", false, false,
            some 86400000, 0, true, none, none, 1, []⟩], 2⟩).reports := by
  constructor
  · refine ingestion_preserves_representation.1 _ _ ?_
    intro r hr
    rcases List.mem_singleton.mp hr with rfl
    exact ⟨by decide, by decide⟩
  · exact ingestion_preserves_representation.2.2.2.2 _ _ 86400100
      ⟨1, 85, 10, "same"⟩ (by decide) (by decide) _ (by decide)

/-- Claim C4: after one sweep, every report with status pending or
verified, not yet escalated, and a deadline strictly in the past is
escalated with priority HIGH and unchanged status, and its notification
carries `hoursOverdue = floor((now - slaDeadline) / 1h)`; resolved,
already-escalated, not-yet-overdue or deadline-less reports are not
escalated by the sweep. -/
theorem sweep_escalates_overdue (now : Int) (s : DbState) (r : Report)
    (hr : r ∈ s.reports) :
    (∀ d : Int, statusOpen r.status = true → r.escalated = false →
      r.slaDeadline = some d → d < now →
      escalateReport r ∈ (sweep now s).reports ∧
      (escalateReport r).escalated = true ∧
      (escalateReport r).priority = "HIGH" ∧
      (escalateReport r).status = r.status ∧
      EscalationNotice.mk r.id r.category r.severity r.slaDeadline
          (Int.fdiv (now - d) 3600000) ∈ sweepNotifications now s) ∧
    (r.status = Status.resolved ∨ r.escalated = true ∨ r.slaDeadline = none ∨
      (∃ d : Int, r.slaDeadline = some d ∧ now ≤ d) →
      shouldEscalate now r = false ∧ r ∈ (sweep now s).reports) := by
  constructor
  · intro d hopen hesc hdl hlt
    have hse : shouldEscalate now r = true := by
      simp [shouldEscalate, hopen, hesc, isOverdue, hdl, hlt]
    refine ⟨?_, rfl, rfl, rfl, ?_⟩
    · refine List.mem_map.mpr ⟨r, hr, ?_⟩
      rw [if_pos hse]
    · refine List.mem_map.mpr ⟨r, List.mem_filter.mpr ⟨hr, hse⟩, ?_⟩
      have hh : getHoursOverdue now r = Int.fdiv (now - d) 3600000 := by
        unfold getHoursOverdue
        rw [hdl]
        exact if_neg (not_le.mpr hlt)
      rw [hh]
  · intro hcond
    have hse : shouldEscalate now r = false := by
      rcases hcond with h | h | h | ⟨d, hd, hle⟩
      · simp [shouldEscalate, statusOpen, h]
      · simp [shouldEscalate, h]
      · simp [shouldEscalate, isOverdue, h]
      · simp [shouldEscalate, isOverdue, hd, not_lt.mpr hle]
    refine ⟨hse, List.mem_map.mpr ⟨r, hr, ?_⟩⟩
    rw [if_neg (by rw [hse]; exact Bool.false_ne_true)]

/-- Witness for `sweep_escalates_overdue`: an overdue pending report is
escalated with the right notification, and a resolved report is left
alone. -/
theorem sweep_escalates_overdue_witness :
    escalateReport
        ⟨1, "overdue", Status.pending, some "POTHOLE", some "HIGH", "MEDIUM", false, false,
          some 1000, 0, true, none, none, 1, []⟩ ∈
      (sweep 7201001
        ⟨[⟨1, "overdue", Status.pending, some "POTHOLE", some "HIGH", "MEDIUM", false, false,
            some 1000, 0, true, none, none, 1, []⟩,
          ⟨2, "done", Status.resolved, some "OTHER", some "LOW", "LOW", false, false,
            some 1000, 0, true, none, none, 1, []⟩], 3⟩).reports ∧
    EscalationNotice.mk 1 (some "POTHOLE") (some "HIGH") (some 1000) 2 ∈
      sweepNotifications 7201001
        ⟨[⟨1, "overdue", Status.pending, some "POTHOLE", some "HIGH", "MEDIUM", false, false,
            some 1000, 0, true, none, none, 1, []⟩,
          ⟨2, "done", Status.resolved, some "OTHER", some "LOW", "LOW", false, false,
            some 1000, 0, true, none, none, 1, []⟩], 3⟩ ∧
    ⟨2, "done", Status.resolved, some "OTHER", some "LOW", "LOW", false, false,
        some 1000, 0, true, none, none, 1, []⟩ ∈
      (sweep 7201001
        ⟨[⟨1, "overdue", Status.pending, some "POTHOLE", some "HIGH", "MEDIUM", false, false,
            some 1000, 0, true, none, none, 1, []⟩,
          ⟨2, "done", Status.resolved, some "OTHER", some "LOW", "LOW", false, false,
            some 1000, 0, true, none, none, 1, []⟩], 3⟩).reports := by
  have h1 := (sweep_escalates_overdue 7201001
    ⟨[⟨1, "overdue", Status.pending, some "POTHOLE", some "HIGH", "MEDIUM", false, false,
        some 1000, 0, true, none, none, 1, []⟩,
      ⟨2, "done", Status.resolved, some "OTHER", some "LOW", "LOW", false, false,
        some 1000, 0, true, none, none, 1, []⟩], 3⟩
    ⟨1, "overdue", Status.pending, some "POTHOLE", some "HIGH", "MEDIUM", false, false,
      some 1000, 0, true, none, none, 1, []⟩ (by decide)).1
    1000 rfl rfl rfl (by decide)
  have h2 := (sweep_escalates_overdue 7201001
    ⟨[⟨1, "overdue", Status.pending, some "POTHOLE", some "HIGH", "MEDIUM", false, false,
        some 1000, 0, true, none, none, 1, []⟩,
      ⟨2, "done", Status.resolved, some "OTHER", some "LOW", "LOW", false, false,
        some 1000, 0, true, none, none, 1, []⟩], 3⟩
    ⟨2, "done", Status.resolved, some "OTHER", some "LOW", "LOW", false, false,
      some 1000, 0, true, none, none, 1, []⟩ (by decide)).2
    (Or.inl rfl)
  refine ⟨h1.1, ?_, h2.2⟩
  have hfd : Int.fdiv (7201001 - 1000) 3600000 = 2 := by decide
  have := h1.2.2.2.2
  rw [hfd] at this
  exact this

/-- `statusOpen` excludes resolved. -/
theorem statusOpen_ne_resolved (st : Status) (h : statusOpen st = true) :
    st ≠ Status.resolved := by
  cases st <;> simp_all [statusOpen]

/-- One step preserves the escalation invariant. -/
theorem step_preserves_escInv (s : DbState) (op : Op) (h : EscInv s) :
    EscInv (step s op) := by
  cases op with
  | ingest inp =>
    show EscInv (ingest inp s)
    cases hdl : getSlaDeadline inp.category inp.severity inp.createdAt with
    | none =>
      rw [ingest_eq_skip inp s hdl]
      exact h
    | some dl =>
      cases hscan : scanForDuplicate inp.candidates with
      | none =>
        rw [ingest_eq_primary inp s dl hdl hscan]
        intro r hr
        rcases List.mem_append.mp hr with hm | hm
        · exact h r hm
        · rcases List.mem_singleton.mp hm with rfl
          intro hesc
          cases hesc
      | some info =>
        rw [ingest_eq_dup inp s dl info hdl hscan]
        intro r hr
        obtain ⟨r₀, hr₀, rfl⟩ := List.mem_map.mp hr
        intro hesc
        rw [(updatePrimary_fields info.primaryReportId s.nextId r₀).1] at hesc
        rw [(updatePrimary_fields info.primaryReportId s.nextId r₀).2.1]
        rcases List.mem_append.mp hr₀ with hm | hm
        · exact h r₀ hm hesc
        · rcases List.mem_singleton.mp hm with rfl
          cases hesc
  | patchStatus rid st =>
    intro r hr
    obtain ⟨r₀, hr₀, rfl⟩ := List.mem_map.mp hr
    by_cases hid : r₀.id = rid
    · rw [if_pos hid]
      by_cases hst : st = Status.resolved
      · rw [if_pos hst]
        intro hesc
        cases hesc
      · rw [if_neg hst]
        intro _
        simpa using hst
    · rw [if_neg hid]
      exact h r₀ hr₀
  | resolvePhoto rid ok =>
    intro r hr
    obtain ⟨r₀, hr₀, rfl⟩ := List.mem_map.mp hr
    by_cases hid : r₀.id = rid
    · rw [if_pos hid]
      intro hesc
      cases hesc
    · rw [if_neg hid]
      exact h r₀ hr₀
  | sweep now =>
    intro r hr
    obtain ⟨r₀, hr₀, rfl⟩ := List.mem_map.mp hr
    by_cases hse : shouldEscalate now r₀ = true
    · rw [if_pos hse]
      intro _
      show (escalateReport r₀).status ≠ Status.resolved
      have hopen : statusOpen r₀.status = true := by
        simp only [shouldEscalate, Bool.and_eq_true] at hse
        exact hse.1.1
      exact statusOpen_ne_resolved _ hopen
    · rw [if_neg hse]
      exact h r₀ hr₀

/-- Claim C5: in every reachable state, an escalated report is never
resolved — both resolution endpoints clear the escalation flags, and the
sweep only escalates pending or verified reports. -/
theorem escalated_never_resolved :
    (∀ (s : DbState) (op : Op), EscInv s → EscInv (step s op)) ∧
    (∀ ops : List Op, EscInv (run ops)) := by
  refine ⟨step_preserves_escInv, ?_⟩
  intro ops
  have hfold : ∀ (l : List Op) (s : DbState), EscInv s → EscInv (l.foldl step s) := by
    intro l
    induction l with
    | nil => exact fun s hs => hs
    | cons a t ih => exact fun s hs => ih (step s a) (step_preserves_escInv s a hs)
  exact hfold ops initState (fun r hr => absurd hr (List.not_mem_nil r))

/-- Witness for `escalated_never_resolved`: a sweep step on a store with
one overdue pending report preserves the invariant, as does a run that
ingests a report and then sweeps. -/
theorem escalated_never_resolved_witness :
    EscInv (step
      ⟨[⟨1, "overdue", Status.pending, some "POTHOLE", some "HIGH", "MEDIUM", false, false,
          some 1000, 0, true, none, none, 1, []⟩], 2⟩ (Op.sweep 7201001)) ∧
    EscInv (run
      [Op.ingest ⟨"new", some "POTHOLE", some "HIGH", 0, []⟩, Op.sweep 99999999]) := by
  constructor
  · refine escalated_never_resolved.1 _ _ ?_
    intro r hr
    rcases List.mem_singleton.mp hr with rfl
    decide
  · exact escalated_never_resolved.2 _

/-- Claim C10: no operation ever sets `escalationNotified` — the sweep's
escalation update writes only `escalated` and `priority`, the only writes
to `escalation_notified` assign false (on resolution), so from a state in
which it is false everywhere it stays false in every reachable state. -/
theorem escalation_notified_never_set :
    (∀ r : Report,
      (escalateReport r).escalationNotified = r.escalationNotified ∧
      (escalateReport r).escalated = true ∧
      (escalateReport r).priority = "HIGH" ∧
      (escalateReport r).status = r.status) ∧
    (∀ (s : DbState) (op : Op), NotifiedFalse s → NotifiedFalse (step s op)) ∧
    (∀ (ops : List Op) (s : DbState),
      NotifiedFalse s → NotifiedFalse (ops.foldl step s)) := by
  have hstep : ∀ (s : DbState) (op : Op), NotifiedFalse s → NotifiedFalse (step s op) := by
    intro s op h
    cases op with
    | ingest inp =>
      show NotifiedFalse (ingest inp s)
      cases hdl : getSlaDeadline inp.category inp.severity inp.createdAt with
      | none =>
        rw [ingest_eq_skip inp s hdl]
        exact h
      | some dl =>
        cases hscan : scanForDuplicate inp.candidates with
        | none =>
          rw [ingest_eq_primary inp s dl hdl hscan]
          intro r hr
          rcases List.mem_append.mp hr with hm | hm
          · exact h r hm
          · rcases List.mem_singleton.mp hm with rfl
            rfl
        | some info =>
          rw [ingest_eq_dup inp s dl info hdl hscan]
          intro r hr
          obtain ⟨r₀, hr₀, rfl⟩ := List.mem_map.mp hr
          rw [(updatePrimary_fields info.primaryReportId s.nextId r₀).2.2.1]
          rcases List.mem_append.mp hr₀ with hm | hm
          · exact h r₀ hm
          · rcases List.mem_singleton.mp hm with rfl
            rfl
    | patchStatus rid st =>
      intro r hr
      obtain ⟨r₀, hr₀, rfl⟩ := List.mem_map.mp hr
      by_cases hid : r₀.id = rid
      · rw [if_pos hid]
        by_cases hst : st = Status.resolved
        · rw [if_pos hst]
        · rw [if_neg hst]
          exact h r₀ hr₀
      · rw [if_neg hid]
        exact h r₀ hr₀
    | resolvePhoto rid ok =>
      intro r hr
      obtain ⟨r₀, hr₀, rfl⟩ := List.mem_map.mp hr
      by_cases hid : r₀.id = rid
      · rw [if_pos hid]
      · rw [if_neg hid]
        exact h r₀ hr₀
    | sweep now =>
      intro r hr
      obtain ⟨r₀, hr₀, rfl⟩ := List.mem_map.mp hr
      by_cases hse : shouldEscalate now r₀ = true
      · rw [if_pos hse]
        exact h r₀ hr₀
      · rw [if_neg hse]
        exact h r₀ hr₀
  refine ⟨fun r => ⟨rfl, rfl, rfl, rfl⟩, hstep, ?_⟩
  intro ops
  induction ops with
  | nil => exact fun s hs => hs
  | cons a t ih => exact fun s hs => ih (step s a) (hstep s a hs)

/-- Witness for `escalation_notified_never_set`: running an ingest, a
sweep and a non-resolving status update from a store with one clean report
keeps `escalationNotified` false everywhere. -/
theorem escalation_notified_never_set_witness :
    NotifiedFalse
      ([Op.ingest ⟨"new", some "POTHOLE", some "HIGH", 0, []⟩,
        Op.sweep 99999999, Op.patchStatus 1 Status.verified].foldl step
        ⟨[⟨1, "seed", Status.pending, some "OTHER", some "LOW", "LOW", false, false,
            some 1000, 0, true, none, none, 1, []⟩], 2⟩) := by
  refine escalation_notified_never_set.2.2 _ _ ?_
  intro r hr
  rcases List.mem_singleton.mp hr with rfl
  rfl

/-! ### Lemmas about the hotspot clustering -/

/-- Splitting a filter along a second predicate is a permutation. -/
theorem filter_split_perm {α : Type} (l : List α) (p q : α → Bool) :
    (l.filter p).Perm
      (l.filter (fun x => p x && q x) ++ l.filter (fun x => p x && !q x)) := by
  induction l with
  | nil => simp
  | cons a t ih =>
    by_cases hp : p a = true
    · by_cases hq : q a = true
      · simpa [hp, hq] using ih.cons a
      · have hq' : q a = false := Bool.not_eq_true (q a) ▸ hq
        simp only [List.filter_cons, hp, hq', Bool.and_false, Bool.and_true,
          Bool.not_false, if_true, if_false]
        exact (ih.cons a).trans List.perm_middle.symm
    · have hp' : p a = false := Bool.not_eq_true (p a) ▸ hp
      simpa [hp'] using ih

/-- The clusters produced by one pass hold, between them, exactly the
unvisited indices of the input, each exactly once. -/
theorem buildClusters_join_perm (dist : ℚ → ℚ → ℚ → ℚ → ℚ) (radius : ℚ)
    (l : List (Nat × GeoReport)) (visited : List Nat)
    (hnd : (l.map Prod.fst).Nodup) :
    (((buildClusters dist radius l visited).map
        (fun c => c.members.map Prod.fst)).join).Perm
      ((l.filter (fun x => decide (x.1 ∉ visited))).map Prod.fst) := by
  induction l generalizing visited with
  | nil => simp [buildClusters]
  | cons hd t ih =>
    obtain ⟨i, r⟩ := hd
    simp only [List.map_cons, List.nodup_cons] at hnd
    obtain ⟨hi, hnd'⟩ := hnd
    by_cases hv : i ∈ visited
    · rw [buildClusters, if_pos hv]
      have hrhs : ((i, r) :: t).filter (fun x => decide (x.1 ∉ visited)) =
          t.filter (fun x => decide (x.1 ∉ visited)) := by
        rw [List.filter_cons]
        simp [hv]
      rw [hrhs]
      exact ih visited hnd'
    · rw [buildClusters, if_neg hv]
      have hrhs : ((i, r) :: t).filter (fun x => decide (x.1 ∉ visited)) =
          (i, r) :: t.filter (fun x => decide (x.1 ∉ visited)) := by
        rw [List.filter_cons]
        simp [hv]
      rw [hrhs]
      have hmem_iff : ∀ x ∈ t, (x.1 ∈ (t.filter (fun y =>
          decide (y.1 ∉ visited) && near dist radius r y.2)).map Prod.fst ↔
          (decide (x.1 ∉ visited) && near dist radius r x.2) = true) := by
        intro x hx
        constructor
        · intro hxm
          obtain ⟨y, hy, hyx⟩ := List.mem_map.mp hxm
          have hyt : y ∈ t := List.mem_of_mem_filter hy
          have hxy : y = x := List.inj_on_of_nodup_map hnd' hyt hx hyx
          subst hxy
          exact (List.mem_filter.mp hy).2
        · intro hpq
          exact List.mem_map_of_mem Prod.fst (List.mem_filter.mpr ⟨hx, hpq⟩)
      have hcongr : ∀ x ∈ t,
          decide (x.1 ∉ (i :: (t.filter (fun y =>
            decide (y.1 ∉ visited) && near dist radius r y.2)).map Prod.fst ++ visited)) =
          (decide (x.1 ∉ visited) && !(near dist radius r x.2)) := by
        intro x hx
        have hxi : x.1 ≠ i := by
          intro hxe
          exact hi (hxe ▸ List.mem_map_of_mem Prod.fst hx)
        by_cases hv2 : x.1 ∈ visited
        · have hL : x.1 ∈ (i :: (t.filter (fun y =>
              decide (y.1 ∉ visited) && near dist radius r y.2)).map Prod.fst ++ visited) := by
            simp [hv2]
          rw [decide_eq_false (not_not_intro hL), decide_eq_false (not_not_intro hv2)]
          rfl
        · rcases hb : near dist radius r x.2 with _ | _
          · have hnm : x.1 ∉ (t.filter (fun y =>
                decide (y.1 ∉ visited) && near dist radius r y.2)).map Prod.fst := by
              intro hm
              have hc := (hmem_iff x hx).mp hm
              rw [hb] at hc
              simp at hc
            have hL : x.1 ∉ (i :: (t.filter (fun y =>
                decide (y.1 ∉ visited) && near dist radius r y.2)).map Prod.fst ++ visited) := by
              intro hmem
              rcases List.mem_cons.mp hmem with he | hm2
              · exact hxi he
              · rcases List.mem_append.mp hm2 with h3 | h4
                · exact hnm h3
                · exact hv2 h4
            rw [decide_eq_true hL, decide_eq_true hv2]
            rfl
          · have hm : x.1 ∈ (t.filter (fun y =>
                decide (y.1 ∉ visited) && near dist radius r y.2)).map Prod.fst := by
              refine (hmem_iff x hx).mpr ?_
              simp [hv2, hb]
            have hL : x.1 ∈ (i :: (t.filter (fun y =>
                decide (y.1 ∉ visited) && near dist radius r y.2)).map Prod.fst ++ visited) :=
              List.mem_cons.mpr (Or.inr (List.mem_append.mpr (Or.inl hm)))
            rw [decide_eq_false (not_not_intro hL), decide_eq_true hv2]
            rfl
      have hfc : t.filter (fun x => decide (x.1 ∉ (i :: (t.filter (fun y =>
            decide (y.1 ∉ visited) && near dist radius r y.2)).map Prod.fst ++ visited))) =
          t.filter (fun x => decide (x.1 ∉ visited) && !(near dist radius r x.2)) :=
        List.filter_congr hcongr
      have ihrec := ih (i :: (t.filter (fun y =>
        decide (y.1 ∉ visited) && near dist radius r y.2)).map Prod.fst ++ visited) hnd'
      rw [hfc] at ihrec
      show ((((i, r) :: t.filter (fun y =>
          decide (y.1 ∉ visited) && near dist radius r y.2)).map Prod.fst) ++
          ((buildClusters dist radius t (i :: (t.filter (fun y =>
            decide (y.1 ∉ visited) && near dist radius r y.2)).map Prod.fst ++ visited)).map
              (fun c => c.members.map Prod.fst)).join).Perm
        (((i, r) :: t.filter (fun x => decide (x.1 ∉ visited))).map Prod.fst)
      rw [List.map_cons, List.map_cons, List.cons_append]
      refine List.Perm.cons i ?_
      refine List.Perm.trans (List.Perm.append_left _ ihrec) ?_
      rw [← List.map_append]
      exact List.Perm.map Prod.fst
        (filter_split_perm t (fun x => decide (x.1 ∉ visited))
          (fun x => near dist radius r x.2)).symm

/-- Every produced cluster is a `mkCluster` whose members are the seed
followed by reports within `radius` of that seed. -/
theorem buildClusters_members (dist : ℚ → ℚ → ℚ → ℚ → ℚ) (radius : ℚ)
    (l : List (Nat × GeoReport)) (visited : List Nat) :
    ∀ c ∈ buildClusters dist radius l visited,
      ∃ s ms, c = mkCluster s ms ∧ c.members = s :: ms ∧
        ∀ x ∈ ms, near dist radius s.2 x.2 = true := by
  induction l generalizing visited with
  | nil =>
    intro c hc
    simp [buildClusters] at hc
  | cons hd t ih =>
    obtain ⟨i, r⟩ := hd
    intro c hc
    rw [buildClusters] at hc
    by_cases hv : i ∈ visited
    · rw [if_pos hv] at hc
      exact ih visited c hc
    · rw [if_neg hv] at hc
      rcases List.mem_cons.mp hc with rfl | hc'
      · refine ⟨(i, r), _, rfl, rfl, ?_⟩
        intro x hx
        exact ((Bool.and_eq_true _ _).mp (List.mem_filter.mp hx).2).2
      · exact ih _ c hc'

/-- The displayed center of a cluster is the arithmetic mean of its
members' coordinates (for a singleton the kept seed coordinates equal the
mean). -/
theorem mkCluster_center (seed : Nat × GeoReport) (ms : List (Nat × GeoReport)) :
    (mkCluster seed ms).centerLat =
      ((mkCluster seed ms).members.map (fun x => x.2.latitude)).sum /
        ((mkCluster seed ms).members.length : ℚ) ∧
    (mkCluster seed ms).centerLng =
      ((mkCluster seed ms).members.map (fun x => x.2.longitude)).sum /
        ((mkCluster seed ms).members.length : ℚ) := by
  cases ms with
  | nil =>
    constructor
    · show seed.2.latitude = _
      simp [mkCluster]
    · show seed.2.longitude = _
      simp [mkCluster]
  | cons b bs =>
    have hlen : 1 < (seed :: b :: bs).length := by
      simp only [List.length_cons]
      omega
    constructor
    · show (if 1 < (seed :: b :: bs).length then _ else _) = _
      rw [if_pos hlen]
      rfl
    · show (if 1 < (seed :: b :: bs).length then _ else _) = _
      rw [if_pos hlen]
      rfl

/-- Claim C7: hotspot clustering partitions its input — every input report
(by index) belongs to exactly one cluster; a member joins by distance to
the cluster's original seed (the first member), never to the recomputed
centroid; after membership is fixed the center is the arithmetic mean of
the members' coordinates; and the first cluster of a nonempty input holds
the head seed together with exactly the later reports within the radius of
that seed. -/
theorem hotspot_clustering_partitions (dist : ℚ → ℚ → ℚ → ℚ → ℚ)
    (radius : ℚ) (reports : List GeoReport) :
    (((clusterLocations dist reports radius).map
        (fun c => c.members.map Prod.fst)).join).Perm
      (List.range reports.length) ∧
    (∀ c ∈ clusterLocations dist reports radius,
      ∃ s ms, c.members = s :: ms ∧ ∀ x ∈ ms, near dist radius s.2 x.2 = true) ∧
    (∀ c ∈ clusterLocations dist reports radius,
      c.centerLat = ((c.members.map (fun x => x.2.latitude)).sum) /
          (c.members.length : ℚ) ∧
      c.centerLng = ((c.members.map (fun x => x.2.longitude)).sum) /
          (c.members.length : ℚ)) ∧
    (∀ (r : GeoReport) (rest : List GeoReport), ∃ tail,
      clusterLocations dist (r :: rest) radius =
        mkCluster (0, r) ((rest.enumFrom 1).filter
          (fun x => near dist radius r x.2)) :: tail) := by
  refine ⟨?_, ?_, ?_, ?_⟩
  · have hnd : ((reports.enum).map Prod.fst).Nodup := by
      rw [List.enum_map_fst]
      exact List.nodup_range _
    have h := buildClusters_join_perm dist radius reports.enum [] hnd
    have hfilter : reports.enum.filter
        (fun x => decide (x.1 ∉ ([] : List Nat))) = reports.enum :=
      List.filter_eq_self.mpr (fun x _ => by simp)
    rw [hfilter, List.enum_map_fst] at h
    exact h
  · intro c hc
    obtain ⟨s, ms, _, hmem, hnear⟩ :=
      buildClusters_members dist radius reports.enum [] c hc
    exact ⟨s, ms, hmem, hnear⟩
  · intro c hc
    obtain ⟨s, ms, rfl, _, _⟩ :=
      buildClusters_members dist radius reports.enum [] c hc
    exact mkCluster_center s ms
  · intro r rest
    refine ⟨buildClusters dist radius (rest.enumFrom 1)
      (0 :: ((rest.enumFrom 1).filter (fun x =>
        decide (x.1 ∉ ([] : List Nat)) && near dist radius r x.2)).map Prod.fst ++ []), ?_⟩
    show buildClusters dist radius ((0, r) :: rest.enumFrom 1) [] = _
    rw [buildClusters, if_neg (List.not_mem_nil 0)]
    rw [@List.filter_congr _
      (fun x => decide (x.1 ∉ ([] : List Nat)) && near dist radius r x.2)
      (fun x => near dist radius r x.2) (rest.enumFrom 1)
      (fun x _ => by simp)]

/-- Witness for `hotspot_clustering_partitions`: a singleton input forms
one cluster holding index 0, whose seed is its first member and whose
center is the (trivial) mean. -/
theorem hotspot_clustering_partitions_witness :
    (((clusterLocations (fun _ _ _ _ => 0) [⟨0, 0, none, none, 0⟩] 100).map
        (fun c => c.members.map Prod.fst)).join).Perm (List.range 1) ∧
    (∃ s ms, (mkCluster (0, (⟨0, 0, none, none, 0⟩ : GeoReport)) []).members = s :: ms ∧
      ∀ x ∈ ms, near (fun _ _ _ _ => 0) 100 s.2 x.2 = true) ∧
    ((mkCluster (0, (⟨0, 0, none, none, 0⟩ : GeoReport)) []).centerLat =
      (((mkCluster (0, (⟨0, 0, none, none, 0⟩ : GeoReport)) []).members.map
        (fun x => x.2.latitude)).sum) /
        ((mkCluster (0, (⟨0, 0, none, none, 0⟩ : GeoReport)) []).members.length : ℚ)) ∧
    (∃ tail, clusterLocations (fun _ _ _ _ => 0) [⟨0, 0, none, none, 0⟩] 100 =
      mkCluster (0, (⟨0, 0, none, none, 0⟩ : GeoReport))
        ((([] : List GeoReport).enumFrom 1).filter
          (fun x => near (fun _ _ _ _ => 0) 100 ⟨0, 0, none, none, 0⟩ x.2)) :: tail) := by
  have hmem : mkCluster (0, (⟨0, 0, none, none, 0⟩ : GeoReport)) [] ∈
      clusterLocations (fun _ _ _ _ => 0) [⟨0, 0, none, none, 0⟩] 100 :=
    List.mem_singleton.mpr rfl
  refine ⟨(hotspot_clustering_partitions _ _ _).1, ?_, ?_, ?_⟩
  · exact (hotspot_clustering_partitions (fun _ _ _ _ => 0)
      100 [⟨0, 0, none, none, 0⟩]).2.1 _ hmem
  · exact ((hotspot_clustering_partitions (fun _ _ _ _ => 0)
      100 [⟨0, 0, none, none, 0⟩]).2.2.1 _ hmem).1
  · exact (hotspot_clustering_partitions (fun _ _ _ _ => 0)
      100 [⟨0, 0, none, none, 0⟩]).2.2.2 ⟨0, 0, none, none, 0⟩ []

end CivicReports
